import Mathlib

/-!
Shallow embedding of the BESS (battery energy storage system) ROI
estimator `src/mani.py`: the hourly dispatch simulator (peak shaving +
price arbitrage), the load provider, and the financial evaluation.
Machine floats are modelled as exact rationals (dispatch, finance) or
reals (load synthesis, NPV analysis).
-/

namespace BESS

/-- The scalar parameters of a simulation run, mirroring the sidebar
inputs of `mani.py`: battery capacity (kWh), rated power (kW), cycle
efficiency, depth of discharge, the three time-of-use prices, the
peak-shaving threshold (kW) and the demand price (per kW per month).
The script performs no validation on these inputs. -/
structure Config where
  batt_capacity : ℚ
  batt_power : ℚ
  eff : ℚ
  dod : ℚ
  price_peak : ℚ
  price_flat : ℚ
  price_valley : ℚ
  threshold : ℚ
  demand_price : ℚ

/-- Usable capacity `usable_cap = batt_capacity * dod` (mani.py line 98). -/
def usable_cap (cfg : Config) : ℚ := cfg.batt_capacity * cfg.dod

/-- The price schedule `get_price` (mani.py lines 89-92): valley on
hours [0,8), peak on [12,14) ∪ [18,22), flat otherwise.  The `0 ≤ h`
half of the first guard is vacuous for a natural-number hour. -/
def get_price (cfg : Config) (h : ℕ) : ℚ :=
  if h < 8 then cfg.price_valley
  else if (12 ≤ h ∧ h < 14) ∨ (18 ≤ h ∧ h < 22) then cfg.price_peak
  else cfg.price_flat

/-- Hour h is in the valley band of the fixed tariff mapping. -/
def valleyHour (h : ℕ) : Prop := h < 8

/-- Hour h is in the peak band of the fixed tariff mapping. -/
def peakHour (h : ℕ) : Prop := (12 ≤ h ∧ h < 14) ∨ (18 ≤ h ∧ h < 22)

/-- Hour h is in the flat band of the fixed tariff mapping. -/
def flatHour (h : ℕ) : Prop := h < 24 ∧ ¬ valleyHour h ∧ ¬ peakHour h

instance (h : ℕ) : Decidable (valleyHour h) := by unfold valleyHour; infer_instance
instance (h : ℕ) : Decidable (peakHour h) := by unfold peakHour; infer_instance
instance (h : ℕ) : Decidable (flatHour h) := by unfold flatHour; infer_instance

/-- One iteration of the dispatch loop (mani.py lines 101-145), given
the state of charge and this hour's load and price.  Returns the
battery power for the hour (positive = discharge, negative = charge)
and the new state of charge.
Priority 1 (peak shaving): if `load > threshold`, discharge
`min(load - threshold, batt_power, soc)`.
Priority 2 (arbitrage), otherwise: at valley price charge
`min(batt_power, usable_cap - soc)` (stored energy grows by
`charge * eff`); at peak price discharge `min(batt_power, soc)`;
otherwise stand by. -/
def dispatchStep (cfg : Config) (soc load price : ℚ) : ℚ × ℚ :=
  if cfg.threshold < load then
    let needed_shave := load - cfg.threshold
    let actual_shave := min (min needed_shave cfg.batt_power) soc
    (actual_shave, soc - actual_shave)
  else if price = cfg.price_valley then
    let max_charge := min cfg.batt_power (usable_cap cfg - soc)
    (-max_charge, soc + max_charge * cfg.eff)
  else if price = cfg.price_peak then
    let max_discharge := min cfg.batt_power soc
    (max_discharge, soc - max_discharge)
  else
    (0, soc)

/-- The 24-hour simulation loop (mani.py lines 97-145), threading the
state of charge through `dispatchStep` hour by hour.  Each list entry
is the pair (battery power, state of charge after the hour). -/
def dispatchTrace (cfg : Config) : ℚ → List (ℕ × ℚ) → List (ℚ × ℚ)
  | _, [] => []
  | soc, (h, load) :: rest =>
    let r := dispatchStep cfg soc load (get_price cfg h)
    r :: dispatchTrace cfg r.2 rest

/-- The hour/load pairs the loop iterates over: hours 0..23 zipped
with the load curve. -/
def hourLoads (loads : List ℚ) : List (ℕ × ℚ) := (List.range 24).zip loads

/-- The `Battery_kW` column: the battery power of each simulated hour. -/
def battActions (cfg : Config) (loads : List ℚ) : List ℚ :=
  (dispatchTrace cfg 0 (hourLoads loads)).map Prod.fst

/-- The grid draw `Grid_kW = Load - Battery_kW` (mani.py line 149). -/
def gridCurve (loads powers : List ℚ) : List ℚ := List.zipWith (fun a b => a - b) loads powers

/-- The maximum of a (nonempty) list, as `np.max` computes
`original_max_demand`
and `new_max_demand` (mani.py lines 65 and 154). -/
def listMax : List ℚ → ℚ
  | [] => 0
  | x :: xs => xs.foldl max x

/-- The demand reduction
`demand_reduction = original_max_demand - new_max_demand`
(mani.py line 155). -/
def demandReduction (cfg : Config) (loads : List ℚ) : ℚ :=
  listMax loads - listMax (gridCurve loads (battActions cfg loads))

/-- The annual demand-charge savings
`annual_demand_savings = demand_reduction * demand_price * 12`
(mani.py lines 157-158). -/
def annualDemandSavings (cfg : Config) (loads : List ℚ) : ℚ :=
  demandReduction cfg loads * cfg.demand_price * 12

/-- The payback period
`payback = capex / total_annual_savings if total_annual_savings > 0
else 99` (mani.py line 170). -/
def payback (capex total_annual_savings : ℚ) : ℚ :=
  if total_annual_savings > 0 then capex / total_annual_savings else 99

/-- The three possible outcomes of the CSV upload widget
(mani.py lines 42-62): no file uploaded, a file whose parse raises
(the `except` branch), or a successfully parsed second column. -/
inductive UploadData where
  | noFile : UploadData
  | malformed : UploadData
  | parsed (vals : List ℝ) : UploadData

/-- The synthetic factory load (mani.py lines 59-62):
`base_load + 50*sin((h-8)/3)^2 + 150*exp(-((h-15)^2)/4)` with
`base_load = 100`, floored at 20 by `np.maximum(load_curve, 20)`. -/
noncomputable def syntheticLoad (h : ℕ) : ℝ :=
  max (100 + 50 * Real.sin (((h : ℝ) - 8) / 3) ^ 2 +
    150 * Real.exp (-(((h : ℝ) - 15) ^ 2) / 4)) 20

/-- The load provider (mani.py lines 46-62): a parsed upload is
truncated to its first 24 values (`.values[:24]`), a malformed upload
falls back to `np.array([50]*24)`, and no upload yields the synthetic
curve. -/
noncomputable def load_curve : UploadData → List ℝ
  | .parsed vals => vals.take 24
  | .malformed => List.replicate 24 50
  | .noFile => (List.range 24).map syntheticLoad

/-- Modelled from the spec: the 10-year cash-flow series
`[-CAPEX, totalAnnualSavings × 10]` handed to the IRR root-finder.
The script imports `numpy_financial` but never calls its solver, so
the series is taken from the spec's words. -/
def cashflowSeries (capex savings : ℝ) : List ℝ :=
  (-capex) :: List.replicate 10 savings

/-- Modelled from the spec: discounted value of the cash flows of a
series starting at year `t`, at discount rate `r`. -/
noncomputable def npvFrom (r : ℝ) : ℕ → List ℝ → ℝ
  | _, [] => 0
  | t, c :: cf => c / (1 + r) ^ t + npvFrom r (t + 1) cf

/-- Modelled from the spec: the net present value of a cash-flow
series at discount rate `r`; the IRR solver returns a rate `r > -1`
at which this vanishes, and the result is undefined when no such
root exists. -/
noncomputable def npv (cf : List ℝ) (r : ℝ) : ℝ := npvFrom r 0 cf

/-- An example configuration used to instantiate the general theorems:
200 kWh capacity, 100 kW power, eff = dod = 1 (both within (0,1]),
the default tariff prices of the sidebar, threshold 100 kW,
demand price 40. -/
def cfgA : Config :=
  { batt_capacity := 200, batt_power := 100, eff := 1, dod := 1,
    price_peak := 23/20, price_flat := 3/4, price_valley := 8/25,
    threshold := 100, demand_price := 40 }

/-- The example configuration with the flat price set equal to the
valley price (both 8/25). -/
def cfgC3 : Config := { cfgA with price_flat := 8/25 }

/-- The example configuration with a negative rated capacity, as the
unvalidated sidebar inputs allow. -/
def cfgBad : Config := { cfgA with batt_capacity := -1 }

/-- One dispatch step keeps the state of charge within `[0, usable_cap]`,
for positive rated power and efficiency in `(0,1]`. -/
theorem dispatchStep_soc_bounds (cfg : Config) (hp : 0 < cfg.batt_power)
    (he0 : 0 < cfg.eff) (he1 : cfg.eff ≤ 1)
    (soc load price : ℚ) (h0 : 0 ≤ soc) (h1 : soc ≤ usable_cap cfg) :
    0 ≤ (dispatchStep cfg soc load price).2 ∧
      (dispatchStep cfg soc load price).2 ≤ usable_cap cfg := by
  by_cases hthr : cfg.threshold < load
  · simp only [dispatchStep, if_pos hthr]
    have hle : min (min (load - cfg.threshold) cfg.batt_power) soc ≤ soc :=
      min_le_right _ _
    have hnn : 0 ≤ min (min (load - cfg.threshold) cfg.batt_power) soc :=
      le_min (le_min (by linarith) hp.le) h0
    constructor
    · linarith
    · linarith
  · by_cases hval : price = cfg.price_valley
    · simp only [dispatchStep, if_neg hthr, if_pos hval]
      have hhr : 0 ≤ usable_cap cfg - soc := by linarith
      have hmin0 : 0 ≤ min cfg.batt_power (usable_cap cfg - soc) := le_min hp.le hhr
      have hminle : min cfg.batt_power (usable_cap cfg - soc) ≤ usable_cap cfg - soc :=
        min_le_right _ _
      have hmul0 : 0 ≤ min cfg.batt_power (usable_cap cfg - soc) * cfg.eff :=
        mul_nonneg hmin0 he0.le
      have hmul1 : min cfg.batt_power (usable_cap cfg - soc) * cfg.eff ≤
          min cfg.batt_power (usable_cap cfg - soc) :=
        mul_le_of_le_one_right hmin0 he1
      constructor
      · linarith
      · linarith
    · by_cases hpk : price = cfg.price_peak
      · simp only [dispatchStep, if_neg hthr, if_neg hval, if_pos hpk]
        have hle : min cfg.batt_power soc ≤ soc := min_le_right _ _
        have hnn : 0 ≤ min cfg.batt_power soc := le_min hp.le h0
        constructor
        · linarith
        · linarith
      · simp only [dispatchStep, if_neg hthr, if_neg hval, if_neg hpk]
        exact ⟨h0, h1⟩

/-- Every state of charge along a dispatch trace started inside
`[0, usable_cap]` stays inside `[0, usable_cap]`. -/
theorem dispatchTrace_soc_bounds (cfg : Config) (hp : 0 < cfg.batt_power)
    (he0 : 0 < cfg.eff) (he1 : cfg.eff ≤ 1) (hl : List (ℕ × ℚ)) :
    ∀ soc : ℚ, 0 ≤ soc → soc ≤ usable_cap cfg →
      ∀ p ∈ dispatchTrace cfg soc hl, 0 ≤ p.2 ∧ p.2 ≤ usable_cap cfg := by
  induction hl with
  | nil =>
    intro soc _ _ p hmem
    simp [dispatchTrace] at hmem
  | cons hd rest ih =>
    intro soc h0 h1 p hmem
    obtain ⟨h, load⟩ := hd
    simp only [dispatchTrace, List.mem_cons] at hmem
    obtain ⟨hb0, hb1⟩ :=
      dispatchStep_soc_bounds cfg hp he0 he1 soc load (get_price cfg h) h0 h1
    rcases hmem with rfl | hmem
    · exact ⟨hb0, hb1⟩
    · exact ih _ hb0 hb1 p hmem

/-- C1: for every configuration with positive capacity and power,
efficiency and DOD in (0,1], every non-negative 24-value load curve and
every threshold, the state of charge of every one of the 24 hourly
dispatch steps (started from soc = 0) satisfies
`0 ≤ soc ≤ usable_cap = batt_capacity * dod`. -/
theorem C1_soc_invariant (cfg : Config) (loads : List ℚ)
    (hc : 0 < cfg.batt_capacity) (hp : 0 < cfg.batt_power)
    (he0 : 0 < cfg.eff) (he1 : cfg.eff ≤ 1)
    (hd0 : 0 < cfg.dod) (hd1 : cfg.dod ≤ 1)
    (hlen : loads.length = 24) (hnn : ∀ l ∈ loads, 0 ≤ l) :
    ∀ p ∈ dispatchTrace cfg 0 (hourLoads loads), 0 ≤ p.2 ∧ p.2 ≤ usable_cap cfg := by
  have hu : (0 : ℚ) ≤ usable_cap cfg := by
    have := mul_pos hc hd0
    unfold usable_cap
    linarith
  exact dispatchTrace_soc_bounds cfg hp he0 he1 (hourLoads loads) 0 le_rfl hu

/-- Witness for C1 at the example configuration and a flat 50 kW load
curve: the first simulated hour charges at 100 kW and leaves
soc = 100, inside `[0, usable_cap]`. -/
theorem C1_soc_invariant_witness :
    0 ≤ ((-100, 100) : ℚ × ℚ).2 ∧ ((-100, 100) : ℚ × ℚ).2 ≤ usable_cap cfgA :=
  C1_soc_invariant cfgA (List.replicate 24 50)
    (by norm_num [cfgA]) (by norm_num [cfgA]) (by norm_num [cfgA]) (by norm_num [cfgA])
    (by norm_num [cfgA]) (by norm_num [cfgA]) (by norm_num)
    (by
      intro l hl
      rw [List.eq_of_mem_replicate hl]
      norm_num)
    ((-100, 100))
    (by
      norm_num [dispatchTrace, dispatchStep, get_price, hourLoads, usable_cap, cfgA,
        List.replicate, List.range, List.range.loop, List.zip, List.zipWith])

/-- C2: in every hour with `load > threshold` the engine discharges
exactly `min (load - threshold) batt_power soc`, decreases soc by that
amount, reports that (non-negative) value as the battery power, and
performs no charging (soc never increases in that hour), whatever the
hour's price is. -/
theorem C2_peak_shaving (cfg : Config) (soc load price : ℚ)
    (hload : cfg.threshold < load) (h0 : 0 ≤ soc) (hp : 0 < cfg.batt_power) :
    (dispatchStep cfg soc load price).1 =
        min (min (load - cfg.threshold) cfg.batt_power) soc ∧
      (dispatchStep cfg soc load price).2 = soc - (dispatchStep cfg soc load price).1 ∧
      0 ≤ (dispatchStep cfg soc load price).1 := by
  simp only [dispatchStep, if_pos hload]
  refine ⟨trivial, trivial, ?_⟩
  exact le_min (le_min (by linarith) hp.le) h0

/-- Witness for C2: at the example configuration with soc = 50 and
load = 180 (> threshold 100), at the hour-12 price. -/
theorem C2_peak_shaving_witness :
    (dispatchStep cfgA 50 180 (get_price cfgA 12)).1 =
        min (min (180 - cfgA.threshold) cfgA.batt_power) 50 ∧
      (dispatchStep cfgA 50 180 (get_price cfgA 12)).2 =
        50 - (dispatchStep cfgA 50 180 (get_price cfgA 12)).1 ∧
      0 ≤ (dispatchStep cfgA 50 180 (get_price cfgA 12)).1 :=
  C2_peak_shaving cfgA 50 180 (get_price cfgA 12)
    (by norm_num [cfgA]) (by norm_num) (by norm_num [cfgA])

/-- C4: in every hour with `load > threshold`, if at entry to the hour
soc and the rated power both cover the shortfall `load - threshold`,
then the post-dispatch grid draw `load - batteryPower` is at most the
threshold. -/
theorem C4_grid_shaved (cfg : Config) (soc load price : ℚ)
    (hload : cfg.threshold < load)
    (hsoc : load - cfg.threshold ≤ soc)
    (hpow : load - cfg.threshold ≤ cfg.batt_power) :
    load - (dispatchStep cfg soc load price).1 ≤ cfg.threshold := by
  simp only [dispatchStep, if_pos hload]
  rw [min_eq_left hpow, min_eq_left hsoc]
  linarith

/-- Witness for C4: at the example configuration with soc = 80 and
load = 150, the shortfall 50 is covered and grid draw is shaved to
the threshold. -/
theorem C4_grid_shaved_witness :
    150 - (dispatchStep cfgA 80 150 (get_price cfgA 15)).1 ≤ cfgA.threshold :=
  C4_grid_shaved cfgA 80 150 (get_price cfgA 15)
    (by norm_num [cfgA]) (by norm_num [cfgA]) (by norm_num [cfgA])

/-- C5: the payback period equals `capex / total_annual_savings` when
the total annual savings are positive, and equals the fixed sentinel
99 when they are zero or negative (no division happens there). -/
theorem C5_payback (capex total_annual_savings : ℚ) :
    (0 < total_annual_savings →
        payback capex total_annual_savings = capex / total_annual_savings) ∧
      (total_annual_savings ≤ 0 → payback capex total_annual_savings = 99) := by
  constructor
  · intro h
    rw [payback, if_pos h]
  · intro h
    rw [payback, if_neg (by linarith : ¬ total_annual_savings > 0)]

/-- Witness for C5: a CAPEX of 240000 with annual savings -5 reports
the sentinel 99 and with annual savings 48000 reports 5 years. -/
theorem C5_payback_witness :
    payback 240000 (-5) = 99 ∧ payback 240000 48000 = (240000 : ℚ) / 48000 :=
  ⟨(C5_payback 240000 (-5)).2 (by norm_num), (C5_payback 240000 48000).1 (by norm_num)⟩

/-- The tariff mapping sends valley-band hours to the valley price. -/
theorem get_price_valley (cfg : Config) (h : ℕ) (hv : valleyHour h) :
    get_price cfg h = cfg.price_valley := by
  unfold valleyHour at hv
  rw [get_price, if_pos hv]

/-- The tariff mapping sends peak-band hours to the peak price. -/
theorem get_price_peak (cfg : Config) (h : ℕ) (hpk : peakHour h) :
    get_price cfg h = cfg.price_peak := by
  unfold peakHour at hpk
  have h8 : ¬ h < 8 := by omega
  rw [get_price, if_neg h8, if_pos hpk]

/-- The tariff mapping sends flat-band hours to the flat price. -/
theorem get_price_flat (cfg : Config) (h : ℕ) (hf : flatHour h) :
    get_price cfg h = cfg.price_flat := by
  obtain ⟨_, hnv, hnp⟩ := hf
  unfold valleyHour at hnv
  unfold peakHour at hnp
  rw [get_price, if_neg hnv, if_neg hnp]

/-- C3 counterexample: the claim fails as stated because the arbitrage
branch compares price values, not tier labels.  With the flat price set
equal to the valley price, hour 10 is in the flat band and load 50 is
below the threshold, yet the engine does not stand by: it charges. -/
theorem C3_flat_tier_counterexample :
    flatHour 10 ∧ ¬ cfgC3.threshold < (50 : ℚ) ∧
      dispatchStep cfgC3 0 50 (get_price cfgC3 10) ≠ ((0 : ℚ), (0 : ℚ)) := by
  refine ⟨?_, ?_, ?_⟩
  · norm_num [flatHour, valleyHour, peakHour]
  · norm_num [cfgC3, cfgA]
  · norm_num [dispatchStep, get_price, usable_cap, cfgC3, cfgA]

/-- C3 amended: in hours with `load ≤ threshold`, a valley-band hour
always charges `min batt_power (usable_cap - soc)` (battery power is
minus that, stored energy grows by `charge * eff`); a peak-band hour
discharges `min batt_power soc` provided the peak price differs from
the valley price; a flat-band hour stands by (power 0, soc unchanged)
provided the flat price differs from both the valley and the peak
price.  The price-distinctness provisos are forced by the code's
comparison of price values rather than tier labels. -/
theorem C3_arbitrage_amended (cfg : Config) (soc load : ℚ) (h : ℕ)
    (hload : ¬ cfg.threshold < load) :
    (valleyHour h →
        dispatchStep cfg soc load (get_price cfg h) =
          (-(min cfg.batt_power (usable_cap cfg - soc)),
            soc + min cfg.batt_power (usable_cap cfg - soc) * cfg.eff)) ∧
      (peakHour h → cfg.price_peak ≠ cfg.price_valley →
        dispatchStep cfg soc load (get_price cfg h) =
          (min cfg.batt_power soc, soc - min cfg.batt_power soc)) ∧
      (flatHour h → cfg.price_flat ≠ cfg.price_valley → cfg.price_flat ≠ cfg.price_peak →
        dispatchStep cfg soc load (get_price cfg h) = (0, soc)) := by
  refine ⟨?_, ?_, ?_⟩
  · intro hv
    rw [get_price_valley cfg h hv, dispatchStep, if_neg hload, if_pos rfl]
  · intro hpk hne
    rw [get_price_peak cfg h hpk, dispatchStep, if_neg hload, if_neg hne, if_pos rfl]
  · intro hf hnv hnp
    rw [get_price_flat cfg h hf, dispatchStep, if_neg hload, if_neg hnv, if_neg hnp]

/-- Witness for the amended C3 at the example configuration (pairwise
distinct prices), soc = 40, load = 50, instantiating the three tier
cases at hours 3 (valley), 12 (peak) and 10 (flat). -/
theorem C3_arbitrage_amended_witness :
    ((valleyHour 3 →
        dispatchStep cfgA 40 50 (get_price cfgA 3) =
          (-(min cfgA.batt_power (usable_cap cfgA - 40)),
            40 + min cfgA.batt_power (usable_cap cfgA - 40) * cfgA.eff)) ∧
      (peakHour 3 → cfgA.price_peak ≠ cfgA.price_valley →
        dispatchStep cfgA 40 50 (get_price cfgA 3) =
          (min cfgA.batt_power 40, 40 - min cfgA.batt_power 40)) ∧
      (flatHour 3 → cfgA.price_flat ≠ cfgA.price_valley → cfgA.price_flat ≠ cfgA.price_peak →
        dispatchStep cfgA 40 50 (get_price cfgA 3) = (0, 40))) :=
  C3_arbitrage_amended cfgA 40 50 3 (by norm_num [cfgA])

/-- C10: the arbitrage branch selects its action by price value, not
tier label: whenever the flat price equals the valley price, every
flat-band hour whose load does not exceed the threshold takes the
charging action `min batt_power (usable_cap - soc)` instead of
standing by. -/
theorem C10_flat_equals_valley_charges (cfg : Config) (soc load : ℚ) (h : ℕ)
    (hload : ¬ cfg.threshold < load) (hf : flatHour h)
    (heq : cfg.price_flat = cfg.price_valley) :
    dispatchStep cfg soc load (get_price cfg h) =
      (-(min cfg.batt_power (usable_cap cfg - soc)),
        soc + min cfg.batt_power (usable_cap cfg - soc) * cfg.eff) := by
  rw [get_price_flat cfg h hf, dispatchStep, if_neg hload, if_pos heq]

/-- Witness for C10: at the flat-equals-valley configuration, soc = 0
and load = 50 at hour 10 (flat band). -/
theorem C10_flat_equals_valley_charges_witness :
    dispatchStep cfgC3 0 50 (get_price cfgC3 10) =
      (-(min cfgC3.batt_power (usable_cap cfgC3 - 0)),
        0 + min cfgC3.batt_power (usable_cap cfgC3 - 0) * cfgC3.eff) :=
  C10_flat_equals_valley_charges cfgC3 0 50 10
    (by norm_num [cfgC3, cfgA])
    (by norm_num [flatHour, valleyHour, peakHour])
    (by norm_num [cfgC3, cfgA])

/-- C9: a valid configuration and load curve on which valley-hour
charging raises the grid maximum above the original maximum load, so
the reported demand reduction and annual demand-charge savings are
negative — the evaluator does not clamp them at zero.  On a flat 50 kW
curve with threshold 100 the example battery charges 100 kW in the
first valley hours, pushing the grid draw to 150 kW. -/
theorem C9_negative_demand_savings :
    (0 < cfgA.batt_capacity ∧ 0 < cfgA.batt_power ∧ 0 < cfgA.eff ∧ cfgA.eff ≤ 1 ∧
        0 < cfgA.dod ∧ cfgA.dod ≤ 1) ∧
      listMax (gridCurve (List.replicate 24 50) (battActions cfgA (List.replicate 24 50))) >
        listMax (List.replicate 24 50) ∧
      demandReduction cfgA (List.replicate 24 50) < 0 ∧
      annualDemandSavings cfgA (List.replicate 24 50) < 0 := by
  refine ⟨by norm_num [cfgA], ?_, ?_, ?_⟩ <;>
    norm_num [annualDemandSavings, demandReduction, listMax, gridCurve, battActions,
      dispatchTrace, dispatchStep, get_price, hourLoads, usable_cap, cfgA,
      List.replicate, List.range, List.range.loop, List.zip, List.zipWith]

/-- A dispatch trace has exactly one record per input hour. -/
theorem dispatchTrace_length (cfg : Config) :
    ∀ (soc : ℚ) (hl : List (ℕ × ℚ)), (dispatchTrace cfg soc hl).length = hl.length := by
  intro soc hl
  induction hl generalizing soc with
  | nil => rfl
  | cons hd rest ih =>
    obtain ⟨h, load⟩ := hd
    simp only [dispatchTrace, List.length_cons]
    rw [ih]

/-- C8 counterexample: the script performs no configuration validation
at all — with a negative rated capacity the full 24-hour simulation
still runs to completion instead of failing at construction. -/
theorem C8_no_fail_fast_counterexample :
    cfgBad.batt_capacity ≤ 0 ∧
      (dispatchTrace cfgBad 0 (hourLoads (List.replicate 24 50))).length = 24 := by
  constructor
  · norm_num [cfgBad, cfgA]
  · rw [dispatchTrace_length]
    norm_num [hourLoads]

/-- C8 amended: no fail-fast construction check exists; every
configuration — including one with non-positive capacity or power —
is accepted and the dispatch simulation runs through all 24 hours. -/
theorem C8_amended_no_validation (cfg : Config) (loads : List ℚ)
    (hlen : loads.length = 24) :
    (dispatchTrace cfg 0 (hourLoads loads)).length = 24 := by
  rw [dispatchTrace_length]
  simp [hourLoads, hlen]

/-- Witness for the amended C8: the negative-capacity configuration on
the flat 50 kW curve still produces 24 hourly records. -/
theorem C8_amended_no_validation_witness :
    (dispatchTrace cfgBad 0 (hourLoads (List.replicate 24 50))).length = 24 :=
  C8_amended_no_validation cfgBad (List.replicate 24 50) (by norm_num)

/-- C7 counterexample: the load provider does not return exactly 24
values (a 3-value upload is passed through untruncated and unpadded),
does not floor uploaded values at the configured minimum 20, and its
malformed-input fallback is the constant 50 curve, which differs from
the default synthetic curve. -/
theorem C7_load_provider_counterexample :
    (load_curve (.parsed [30, 40, 25])).length ≠ 24 ∧
      (∃ x ∈ load_curve (.parsed [5]), x < 20) ∧
      load_curve .malformed ≠ load_curve .noFile := by
  refine ⟨?_, ?_, ?_⟩
  · simp [load_curve]
  · exact ⟨5, by simp [load_curve], by norm_num⟩
  · intro heq
    have h15 := congrArg (fun l => l.getD 15 0) heq
    have hsyn : (250 : ℝ) ≤ syntheticLoad 15 := by
      rw [syntheticLoad]
      have hs : (0 : ℝ) ≤ Real.sin (((15 : ℕ) : ℝ) - 8) ^ 2 := by positivity
      have he : Real.exp (-((((15 : ℕ) : ℝ) - 15) ^ 2) / 4) = 1 := by
        norm_num
      refine le_trans ?_ (le_max_left _ _)
      rw [he]
      nlinarith [sq_nonneg (Real.sin ((((15 : ℕ) : ℝ) - 8) / 3))]
    simp only [load_curve] at h15
    rw [List.getD_eq_getElem?_getD] at h15
    norm_num [List.getElem?_replicate, List.getElem?_map, List.getElem?_range] at h15
    rw [← h15] at hsyn
    norm_num at hsyn

/-- C7 amended: the load provider truncates a parsed upload to at most
24 values without padding or flooring it; on malformed input it falls
back to the constant 50 kW curve (24 values, no exception reaches the
caller); without an upload it produces the 24-value synthetic curve,
whose values are floored at 20. -/
theorem C7_amended_load_provider :
    (∀ vals : List ℝ, load_curve (.parsed vals) = vals.take 24) ∧
      load_curve .malformed = List.replicate 24 50 ∧
      (load_curve .noFile).length = 24 ∧
      (∀ x ∈ load_curve .noFile, 20 ≤ x) := by
  refine ⟨fun vals => rfl, rfl, ?_, ?_⟩
  · simp [load_curve]
  · intro x hx
    simp only [load_curve, List.mem_map] at hx
    obtain ⟨h, _, rfl⟩ := hx
    exact le_max_right _ _

/-- Witness for the amended C7: a concrete 3-value upload is returned
as its own 24-truncation, and the hour-3 synthetic value is at least
the floor 20. -/
theorem C7_amended_load_provider_witness :
    load_curve (.parsed [30, 40, 25]) = ([30, 40, 25] : List ℝ).take 24 ∧
      20 ≤ syntheticLoad 3 :=
  ⟨C7_amended_load_provider.1 [30, 40, 25],
    C7_amended_load_provider.2.2.2 (syntheticLoad 3)
      (by simp [load_curve, List.mem_map]; exact ⟨3, by norm_num [List.mem_range], rfl⟩)⟩

/-- A constant nonpositive cash-flow tail has nonpositive discounted
value at any rate with `1 + r > 0`. -/
theorem npvFrom_nonpos (r : ℝ) (hr : 0 < 1 + r) (s : ℝ) (hs : s ≤ 0) :
    ∀ (n t : ℕ), npvFrom r t (List.replicate n s) ≤ 0 := by
  intro n
  induction n with
  | zero => intro t; simp [npvFrom]
  | succ n ih =>
    intro t
    simp only [List.replicate_succ, npvFrom]
    have h1 : s / (1 + r) ^ t ≤ 0 :=
      div_nonpos_iff.mpr (Or.inr ⟨hs, (pow_pos hr t).le⟩)
    linarith [ih (t + 1)]

/-- A constant nonnegative cash-flow tail has nonnegative discounted
value at any rate with `1 + r > 0`. -/
theorem npvFrom_nonneg (r : ℝ) (hr : 0 < 1 + r) (s : ℝ) (hs : 0 ≤ s) :
    ∀ (n t : ℕ), 0 ≤ npvFrom r t (List.replicate n s) := by
  intro n
  induction n with
  | zero => intro t; simp [npvFrom]
  | succ n ih =>
    intro t
    simp only [List.replicate_succ, npvFrom]
    have h1 : 0 ≤ s / (1 + r) ^ t := div_nonneg hs (pow_pos hr t).le
    linarith [ih (t + 1)]

/-- The discounted value of a nonempty constant nonnegative tail is at
least its first term. -/
theorem npvFrom_ge_first (r : ℝ) (hr : 0 < 1 + r) (s : ℝ) (hs : 0 ≤ s) (n t : ℕ) :
    s / (1 + r) ^ t ≤ npvFrom r t (List.replicate (n + 1) s) := by
  simp only [List.replicate_succ, npvFrom]
  linarith [npvFrom_nonneg r hr s hs n (t + 1)]

/-- For rates with `1 + r ≥ 1`, a constant nonnegative tail starting
at year `t ≥ 1` is bounded by `n` copies of the first-year discount. -/
theorem npvFrom_le_card (r : ℝ) (hr : 1 ≤ 1 + r) (s : ℝ) (hs : 0 ≤ s) :
    ∀ (n t : ℕ), 1 ≤ t → npvFrom r t (List.replicate n s) ≤ n * (s / (1 + r)) := by
  intro n
  induction n with
  | zero => intro t _; simp [npvFrom]
  | succ n ih =>
    intro t ht
    have h0 : (0 : ℝ) < 1 + r := lt_of_lt_of_le one_pos hr
    simp only [List.replicate_succ, npvFrom]
    have hpow : 1 + r ≤ (1 + r) ^ t := by
      calc 1 + r = (1 + r) ^ 1 := (pow_one _).symm
        _ ≤ (1 + r) ^ t := pow_le_pow_right₀ hr ht
    have h1 : s / (1 + r) ^ t ≤ s / (1 + r) :=
      div_le_div_of_nonneg_left hs h0 hpow
    have h2 := ih (t + 1) (by omega)
    push_cast
    linarith

/-- The net present value of the modelled series: the CAPEX outflow at
year 0 plus the discounted constant 10-year tail. -/
theorem npv_cashflowSeries (capex savings r : ℝ) :
    npv (cashflowSeries capex savings) r =
      -capex + npvFrom r 1 (List.replicate 10 savings) := by
  simp [npv, cashflowSeries, npvFrom]

/-- The discounted value of any series is continuous in the rate on
the solver's domain `r > -1`. -/
theorem npvFrom_continuousOn (cf : List ℝ) :
    ∀ t : ℕ, ContinuousOn (fun r => npvFrom r t cf) {r : ℝ | -1 < r} := by
  induction cf with
  | nil =>
    intro t
    simpa [npvFrom] using continuousOn_const
  | cons c cf ih =>
    intro t
    simp only [npvFrom]
    refine ContinuousOn.add ?_ (ih (t + 1))
    refine ContinuousOn.div continuousOn_const ?_ ?_
    · exact ((continuous_const.add continuous_id).pow t).continuousOn
    · intro r hr
      have hr' : (0 : ℝ) < 1 + r := by
        have : (-1 : ℝ) < r := hr
        linarith
      positivity

/-- C6: the IRR of the modelled 10-year cash-flow series
`[-CAPEX, totalAnnualSavings × 10]` is defined exactly when the series
admits a real root in the solver's domain `r > -1`, and for a positive
CAPEX such a root exists if and only if the annual savings are
positive — so the evaluator reports a numeric percentage for positive
savings and "undefined" otherwise. -/
theorem C6_irr_root_exists_iff (capex savings : ℝ) (hc : 0 < capex) :
    (∃ r : ℝ, -1 < r ∧ npv (cashflowSeries capex savings) r = 0) ↔ 0 < savings := by
  constructor
  · rintro ⟨r, hr, hroot⟩
    by_contra hs
    push_neg at hs
    have h0 : (0 : ℝ) < 1 + r := by linarith
    have htail := npvFrom_nonpos r h0 savings hs 10 1
    rw [npv_cashflowSeries] at hroot
    linarith
  · intro hs
    set r₁ : ℝ := savings / (2 * capex) - 1 with hr₁def
    set R : ℝ := 10 * savings / capex with hRdef
    have hr₁base : (0 : ℝ) < 1 + r₁ := by
      rw [hr₁def]
      have : (0 : ℝ) < savings / (2 * capex) := by positivity
      linarith
    have hr₁gt : (-1 : ℝ) < r₁ := by linarith
    have hRpos : (0 : ℝ) < R := by rw [hRdef]; positivity
    have hRbase : (1 : ℝ) ≤ 1 + R := by linarith
    have hle : r₁ ≤ R := by
      have h1 : savings / (2 * capex) ≤ 10 * savings / capex := by
        rw [div_le_div_iff (by positivity) hc]
        nlinarith
      rw [hr₁def, hRdef]
      linarith
    have hFr₁ : 0 < npv (cashflowSeries capex savings) r₁ := by
      rw [npv_cashflowSeries]
      have hfirst := npvFrom_ge_first r₁ hr₁base savings hs.le 9 1
      have hval : savings / (1 + r₁) ^ 1 = 2 * capex := by
        rw [pow_one]
        have : 1 + r₁ = savings / (2 * capex) := by rw [hr₁def]; ring
        rw [this]
        field_simp
      rw [hval] at hfirst
      linarith
    have hFR : npv (cashflowSeries capex savings) R < 0 := by
      rw [npv_cashflowSeries]
      have htail := npvFrom_le_card R hRbase savings hs.le 10 1 le_rfl
      have hkey : (10 : ℝ) * (savings / (1 + R)) < capex := by
        rw [mul_div_assoc']
        rw [div_lt_iff (by linarith : (0 : ℝ) < 1 + R)]
        have hexp : capex * (1 + R) = capex + 10 * savings := by
          rw [hRdef]
          field_simp
        rw [hexp]
        linarith
      have htail' : npvFrom R 1 (List.replicate 10 savings) ≤ 10 * (savings / (1 + R)) := by
        exact_mod_cast htail
      linarith
    have hsub : Set.Icc r₁ R ⊆ {r : ℝ | -1 < r} := by
      intro x hx
      exact lt_of_lt_of_le hr₁gt hx.1
    have hcont : ContinuousOn (fun r => npv (cashflowSeries capex savings) r)
        (Set.Icc r₁ R) :=
      (npvFrom_continuousOn (cashflowSeries capex savings) 0).mono hsub
    have hmem : (0 : ℝ) ∈ Set.Icc (npv (cashflowSeries capex savings) R)
        (npv (cashflowSeries capex savings) r₁) :=
      Set.mem_Icc.mpr ⟨hFR.le, hFr₁.le⟩
    obtain ⟨x, hx, hFx⟩ := intermediate_value_Icc' hle hcont hmem
    exact ⟨x, lt_of_lt_of_le hr₁gt hx.1, hFx⟩

/-- Witness for C6 at the spec's end-to-end scenario figures:
CAPEX 240000 with annual savings 48000 admits an IRR root. -/
theorem C6_irr_root_exists_iff_witness :
    (∃ r : ℝ, -1 < r ∧ npv (cashflowSeries 240000 48000) r = 0) ↔ (0 : ℝ) < 48000 :=
  C6_irr_root_exists_iff 240000 48000 (by norm_num)

end BESS
